import Mathlib

/-!
A shallow embedding of the audio-player pipeline in `src/tutorial08/tutorial08.c`
(an ffmpeg/SDL tutorial player): the thread-safe packet queue, the audio-clock
drift correction (`synchronize_audio`), the audio-clock bookkeeping of
`audio_decode_frame`, the seek request interface (`stream_seek`) and the seek
servicing step of `decode_thread`.

Modelling conventions:
* C `int` / `int64_t` values are `Int` (no claim here hinges on 32/64-bit wraparound,
  except the bitwise `&=` in `decode_thread`, modelled exactly on 32 bits);
* C `double` values are `ℚ` (exact arithmetic standing in for IEEE doubles; every
  concrete input used below is exactly representable);
* the linked list `first_pkt … last_pkt` is a `List`, the mutex/condition variable
  are elided and the blocking wait of `packet_queue_get` is surfaced as an explicit
  `blocked` result (one pass of the C `for (;;)` loop, which then waits and re-checks);
* `AVPacket` is reduced to the fields the claims read: `size`, `pts`
  (`none` = `AV_NOPTS_VALUE`) and whether `data` is the sentinel `flush_pkt.data`.
-/

/-- An `AVPacket` as far as the queue and clock bookkeeping read it. -/
structure Packet where
  size : Int
  pts : Option Int
  isFlushMarker : Bool
deriving Repr, DecidableEq

/-- The global `flush_pkt` (line 195, initialized at lines 332-333):
`av_init_packet` leaves `size = 0` and `pts = AV_NOPTS_VALUE`; `data` is set to
the sentinel string, making it recognizable as the flush marker. -/
def flush_pkt : Packet := { size := 0, pts := none, isFlushMarker := true }

/-- `PacketQueue` (lines 77-85): the packet list plus the two accounting
fields; mutex and condition variable are elided. -/
structure PacketQueue where
  pkts : List Packet
  nb_packets : Int
  size : Int
deriving Repr, DecidableEq

/-- `packet_queue_init` (lines 996-1022): `memset(q, 0, sizeof(PacketQueue))`. -/
def packet_queue_init : PacketQueue := { pkts := [], nb_packets := 0, size := 0 }

/-- What `packet_queue_put` leaves behind: its return value, the queue, and
whether `SDL_CondSignal` was issued. -/
structure PutResult where
  ret : Int
  queue : PacketQueue
  signaled : Bool
deriving Repr, DecidableEq

/-- `packet_queue_put` (lines 1032-1081). `allocOk` models whether
`av_malloc(sizeof(AVPacketList))` succeeds; on failure the function returns `-1`
before touching the queue. On success the node is appended at the tail,
`nb_packets` is incremented, `size` grows by `pkt.size`, and the not-empty
condition is signalled. -/
def packet_queue_put (queue : PacketQueue) (packet : Packet) (allocOk : Bool) :
    PutResult :=
  if !allocOk then
    { ret := -1, queue := queue, signaled := false }
  else
    { ret := 0,
      queue :=
        { pkts := queue.pkts ++ [packet],
          nb_packets := queue.nb_packets + 1,
          size := queue.size + packet.size },
      signaled := true }

/-- The way one pass of the `for (;;)` loop in `packet_queue_get` ends:
`quitRes` is the `ret = -1` exit, `got` the `ret = 1` exit, `emptyRes` the
`ret = 0` exit, and `blocked` stands for `SDL_CondWait` (wait, then re-check). -/
inductive GetResult where
  | quitRes
  | got (p : Packet)
  | emptyRes
  | blocked
deriving Repr, DecidableEq

/-- `packet_queue_get` (lines 1094-1159), one pass of its loop. The quit flag
(`global_video_state->quit`) is checked first and wins regardless of queue
contents; then a non-empty queue has its head detached with the accounting
decremented; an empty queue returns `0` when non-blocking, and otherwise waits
on the condition variable before re-checking. -/
def packet_queue_get (queue : PacketQueue) (blocking : Bool) (quit : Bool) :
    GetResult × PacketQueue :=
  if quit then
    (GetResult.quitRes, queue)
  else
    match queue.pkts with
    | p :: rest =>
        (GetResult.got p,
          { pkts := rest,
            nb_packets := queue.nb_packets - 1,
            size := queue.size - p.size })
    | [] =>
        if !blocking then (GetResult.emptyRes, queue)
        else (GetResult.blocked, queue)

/-- The C return code of a finished `packet_queue_get` pass (`blocked` does not
return). -/
def getRetCode : GetResult → Option Int
  | GetResult.quitRes => some (-1)
  | GetResult.got _ => some 1
  | GetResult.emptyRes => some 0
  | GetResult.blocked => none

/-- `packet_queue_flush` (lines 1165-1184): frees every node and zeroes the
pointers and both accounting fields. -/
def packet_queue_flush (_queue : PacketQueue) : PacketQueue :=
  { pkts := [], nb_packets := 0, size := 0 }

/-- One queue operation of a client history, with its environment bits
(allocation success for `put`; the quit flag for `get`). -/
inductive QueueOp where
  | put (p : Packet) (allocOk : Bool)
  | get (blocking : Bool) (quit : Bool)
  | flushOp
deriving Repr, DecidableEq

/-- Apply one operation to a queue, keeping only the queue. -/
def applyOp (queue : PacketQueue) (op : QueueOp) : PacketQueue :=
  match op with
  | QueueOp.put p allocOk => (packet_queue_put queue p allocOk).queue
  | QueueOp.get blocking quit => (packet_queue_get queue blocking quit).2
  | QueueOp.flushOp => packet_queue_flush queue

/-- Run a finite operation history from a starting queue. -/
def runOps (queue : PacketQueue) (ops : List QueueOp) : PacketQueue :=
  ops.foldl applyOp queue

/-- Sum of the `size` fields of the listed packets. -/
def sumSizes (l : List Packet) : Int := (l.map Packet.size).sum

/-- The accounting invariant the queue maintains: `size` is the sum of the
queued packets' sizes and `nb_packets` is their number. -/
def QueueAccurate (queue : PacketQueue) : Prop :=
  queue.size = sumSizes queue.pkts ∧ queue.nb_packets = (queue.pkts.length : Int)

/-- All packets currently queued have strictly positive size. -/
def AllSizesPos (queue : PacketQueue) : Prop :=
  ∀ p ∈ queue.pkts, 0 < p.size

/-- Every `put` in the history inserts a packet of strictly positive size. -/
def putSizesPos (ops : List QueueOp) : Bool :=
  ops.all fun op =>
    match op with
    | QueueOp.put p _ => decide (0 < p.size)
    | _ => true

/-! ### Clock and drift-correction model (`synchronize_audio` and friends) -/

/-- `AV_SYNC_AUDIO_MASTER` (first constant of the sync-type enum, line 179). -/
def AV_SYNC_AUDIO_MASTER : Int := 0

/-- `AV_SYNC_EXTERNAL_MASTER` (second constant of the sync-type enum, line 184). -/
def AV_SYNC_EXTERNAL_MASTER : Int := 1

/-- `AV_NOSYNC_THRESHOLD` (line 45): 1.0 second. -/
def AV_NOSYNC_THRESHOLD : ℚ := 1

/-- `SAMPLE_CORRECTION_PERCENT_MAX` (line 50). -/
def SAMPLE_CORRECTION_PERCENT_MAX : Int := 10

/-- `AUDIO_DIFF_AVG_NB` (line 55). -/
def AUDIO_DIFF_AVG_NB : Int := 20

/-- The slice of `VideoState` read and written by the clock/sync functions. -/
structure SyncState where
  av_sync_type : Int
  audio_st : Bool
  channels : Int
  sample_rate : Int
  audio_clock : ℚ
  audio_buf_size : Int
  audio_buf_index : Int
  audio_diff_cum : ℚ
  audio_diff_avg_coef : ℚ
  audio_diff_threshold : ℚ
  audio_diff_avg_count : Int
deriving Repr, DecidableEq

/-- `get_audio_clock` (lines 881-902): the audio clock minus the portion of the
staging buffer not yet delivered to the device, in seconds. -/
def get_audio_clock (vs : SyncState) : ℚ :=
  let pts := vs.audio_clock
  let hw_buf_size : Int := vs.audio_buf_size - vs.audio_buf_index
  let n : Int := 2 * vs.channels
  let bytes_per_sec : Int := if vs.audio_st then vs.sample_rate * n else 0
  if bytes_per_sec ≠ 0 then pts - (hw_buf_size : ℚ) / (bytes_per_sec : ℚ) else pts

/-- `get_external_clock` (lines 910-916): `av_gettime() / 1000000.0`, with the
current wall-clock reading in microseconds passed in as `now_us` (the cached
`external_clock` field writes are elided). -/
def get_external_clock (now_us : ℚ) : ℚ := now_us / 1000000

/-- `get_master_clock` (lines 926-941). -/
def get_master_clock (vs : SyncState) (now_us : ℚ) : ℚ :=
  if vs.av_sync_type = AV_SYNC_AUDIO_MASTER then get_audio_clock vs
  else if vs.av_sync_type = AV_SYNC_EXTERNAL_MASTER then get_external_clock now_us
  else -1

/-- The C cast `(int)` applied to a double: truncation toward zero. -/
def truncQ (q : ℚ) : Int := Int.tdiv q.num (q.den : Int)

/-- `memcpy(buf + dst, buf + src, n)` on a byte buffer modelled as a list
(out-of-range reads yield 0; out-of-range writes are dropped, matching the fact
that the capacity of `audio_buf` is far above every size used here). -/
def listCopySeg (buf : List Int) (dst src : ℕ) (n : ℕ) : List Int :=
  (List.range buf.length).map fun i =>
    if dst ≤ i ∧ i < dst + n then buf.getD (src + (i - dst)) 0 else buf.getD i 0

/-- The `while(nb > 0)` padding loop of `synchronize_audio` (lines 850-855),
written with explicit fuel: each pass copies `n` bytes from offset
`samples_end` to offset `q`, advances `q` by `n` and lowers `nb` by `n`, so
`nb.toNat` passes always suffice when `0 < n`. -/
def addSamplesLoopFuel : ℕ → List Int → ℕ → ℕ → Int → Int → List Int
  | 0, buf, _, _, _, _ => buf
  | Nat.succ fuel, buf, samples_end, q, n, nb =>
    if 0 < nb then
      if 0 < n then
        addSamplesLoopFuel fuel (listCopySeg buf q samples_end n.toNat)
          samples_end (q + n.toNat) n (nb - n)
      else buf
    else buf

/-- The padding loop with its entry values: `samples_end = samples_size - n`,
`q = samples_end + n`, `nb` as computed by the caller. -/
def addSamplesLoop (buf : List Int) (samples_end q : ℕ) (n nb : Int) : List Int :=
  addSamplesLoopFuel nb.toNat buf samples_end q n nb

/-- What `synchronize_audio` leaves behind: the updated drift-average state,
the (possibly padded) buffer, and the returned byte count. -/
structure SyncResult where
  state : SyncState
  samples : List Int
  samples_size : Int
deriving Repr, DecidableEq

/-- `synchronize_audio` (lines 774-871). In audio-master mode it is a
passthrough. Otherwise it accumulates the clock difference
(`diff_sum = new_diff + diff_sum * c`), and once `AUDIO_DIFF_AVG_NB` samples
have been seen and the weighted average exceeds the threshold it computes
`wanted_size`, clamps it with the source's integer percentage arithmetic
(`samples_size * ((100 ∓ 10) / 100)`), truncates or pads, and returns the
adjusted size. A difference at or above `AV_NOSYNC_THRESHOLD` resets the
accumulator instead. -/
def synchronize_audio (vs : SyncState) (samples : List Int) (samples_size : Int)
    (now_us : ℚ) : SyncResult :=
  let n : Int := 2 * vs.channels
  if vs.av_sync_type ≠ AV_SYNC_AUDIO_MASTER then
    let ref_clock := get_master_clock vs now_us
    let diff := get_audio_clock vs - ref_clock
    if diff < AV_NOSYNC_THRESHOLD then
      let vs1 :=
        { vs with audio_diff_cum := diff + vs.audio_diff_avg_coef * vs.audio_diff_cum }
      if vs1.audio_diff_avg_count < AUDIO_DIFF_AVG_NB then
        { state := { vs1 with audio_diff_avg_count := vs1.audio_diff_avg_count + 1 },
          samples := samples, samples_size := samples_size }
      else
        let avg_diff := vs1.audio_diff_cum * (1 - vs1.audio_diff_avg_coef)
        if |avg_diff| ≥ vs1.audio_diff_threshold then
          let wanted_size := samples_size + truncQ (diff * (vs.sample_rate : ℚ)) * n
          let min_size := samples_size * ((100 - SAMPLE_CORRECTION_PERCENT_MAX) / 100)
          let max_size := samples_size * ((100 + SAMPLE_CORRECTION_PERCENT_MAX) / 100)
          let wanted_clamped :=
            if wanted_size < min_size then min_size
            else if wanted_size > max_size then max_size
            else wanted_size
          if wanted_clamped < samples_size then
            { state := vs1, samples := samples, samples_size := wanted_clamped }
          else if wanted_clamped > samples_size then
            { state := vs1,
              samples := addSamplesLoop samples (samples_size - n).toNat
                samples_size.toNat n (samples_size - wanted_clamped),
              samples_size := wanted_clamped }
          else
            { state := vs1, samples := samples, samples_size := samples_size }
        else
          { state := vs1, samples := samples, samples_size := samples_size }
    else
      { state := { vs with audio_diff_avg_count := 0, audio_diff_cum := 0 },
        samples := samples, samples_size := samples_size }
  else
    { state := vs, samples := samples, samples_size := samples_size }

/-- The clock difference `synchronize_audio` measures (line 788). -/
def sync_diff (vs : SyncState) (now_us : ℚ) : ℚ :=
  get_audio_clock vs - get_master_clock vs now_us

/-- The weighted average difference as `synchronize_audio` computes it
(lines 793 and 801), expressed over the state at entry. -/
def sync_avg_diff (vs : SyncState) (now_us : ℚ) : ℚ :=
  (sync_diff vs now_us + vs.audio_diff_avg_coef * vs.audio_diff_cum)
    * (1 - vs.audio_diff_avg_coef)

/-! ### Audio-clock bookkeeping of `audio_decode_frame` -/

/-- The packet-consumption step of `audio_decode_frame` (lines 1411-1425):
after a packet is popped, a flush marker only flushes the decoder; otherwise,
a valid `pts` snaps `audio_clock` to `av_q2d(time_base) * pts`, and an invalid
one leaves the clock to keep advancing from the running estimate. -/
def adfConsumePacket (audio_clock : ℚ) (time_base : ℚ) (pkt : Packet) : ℚ :=
  if pkt.isFlushMarker then audio_clock
  else
    match pkt.pts with
    | some ts => time_base * (ts : ℚ)
    | none => audio_clock

/-- The audio clock observed immediately after each packet of a list is
consumed. -/
def adfClockTrace (audio_clock : ℚ) (time_base : ℚ) : List Packet → List ℚ
  | [] => []
  | pkt :: rest =>
      let c := adfConsumePacket audio_clock time_base pkt
      c :: adfClockTrace c time_base rest

/-- The two `audio_clock` updates of `audio_decode_frame`, as events of one
decode/pump execution: a packet pop (lines 1418-1425, `pts = none` also covers
the flush marker, whose `pts` is unset) and a returned chunk of resampled PCM
(lines 1386-1393, which adds `data_size / (2 * channels * sample_rate)`
seconds). -/
inductive AdfEvent where
  | packetPop (pts : Option Int)
  | chunkOut (data_size : Int)
deriving Repr, DecidableEq

/-- How one event changes `audio_clock`. -/
def adfEventStep (time_base : ℚ) (channels sample_rate : Int) (audio_clock : ℚ) :
    AdfEvent → ℚ
  | AdfEvent.packetPop pts =>
      match pts with
      | some ts => time_base * (ts : ℚ)
      | none => audio_clock
  | AdfEvent.chunkOut data_size =>
      audio_clock + (data_size : ℚ) / ((2 * channels * sample_rate : Int) : ℚ)

/-- `audio_clock` after an event sequence. -/
def adfClockRun (time_base : ℚ) (channels sample_rate : Int) (audio_clock : ℚ) :
    List AdfEvent → ℚ
  | [] => audio_clock
  | e :: rest =>
      adfClockRun time_base channels sample_rate
        (adfEventStep time_base channels sample_rate audio_clock e) rest

/-- The value of `audio_clock` at each chunk delivered to the sink callback. -/
def adfChunkClocks (time_base : ℚ) (channels sample_rate : Int) (audio_clock : ℚ) :
    List AdfEvent → List ℚ
  | [] => []
  | AdfEvent.chunkOut ds :: rest =>
      let c := adfEventStep time_base channels sample_rate audio_clock
        (AdfEvent.chunkOut ds)
      c :: adfChunkClocks time_base channels sample_rate c rest
  | AdfEvent.packetPop pts :: rest =>
      adfChunkClocks time_base channels sample_rate
        (adfEventStep time_base channels sample_rate audio_clock
          (AdfEvent.packetPop pts)) rest

/-- Every chunk in the sequence carries a non-negative byte count and every
timestamp snap lands at or after the running clock (no snap moves the clock
backwards). -/
def snapsForward (time_base : ℚ) (channels sample_rate : Int) (audio_clock : ℚ) :
    List AdfEvent → Bool
  | [] => true
  | AdfEvent.packetPop (some ts) :: rest =>
      decide (audio_clock ≤ time_base * (ts : ℚ)) &&
        snapsForward time_base channels sample_rate (time_base * (ts : ℚ)) rest
  | AdfEvent.packetPop none :: rest =>
      snapsForward time_base channels sample_rate audio_clock rest
  | AdfEvent.chunkOut ds :: rest =>
      decide (0 ≤ ds) &&
        snapsForward time_base channels sample_rate
          (adfEventStep time_base channels sample_rate audio_clock
            (AdfEvent.chunkOut ds)) rest

/-! ### Seek requests -/

/-- `AVSEEK_FLAG_BACKWARD`. -/
def AVSEEK_FLAG_BACKWARD : Int := 1

/-- The seek-request slice of `VideoState` (lines 128-130). -/
structure SeekState where
  seek_req : Bool
  seek_flags : Int
  seek_pos : Int
deriving Repr, DecidableEq

/-- `stream_seek` (lines 1715-1723): record target, direction flag and pending
flag only when no request is pending; otherwise do nothing. -/
def stream_seek (vs : SeekState) (pos : Int) (rel : Int) : SeekState :=
  if !vs.seek_req then
    { seek_req := true,
      seek_flags := if rel < 0 then AVSEEK_FLAG_BACKWARD else 0,
      seek_pos := pos }
  else vs

/-- The producer servicing a request (lines 539-572): it reads `seek_pos` and
`seek_flags` for the container seek and clears the pending flag. Returns the
(position, flags) pair it applied together with the new state. -/
def serviceSeek (vs : SeekState) : (Int × Int) × SeekState :=
  ((vs.seek_pos, vs.seek_flags), { vs with seek_req := false })

/-- A C `int` reinterpreted as its unsigned 32-bit pattern. -/
def toUInt32Bits (x : Int) : ℕ := (Int.emod x (2 ^ 32)).toNat

/-- An unsigned 32-bit pattern reinterpreted as a signed C `int`. -/
def ofUInt32Bits (n : ℕ) : Int :=
  if n < 2 ^ 31 then (n : Int) else (n : Int) - 2 ^ 32

/-- Bitwise AND of two C `int`s (two's complement on 32 bits), as in the
source's `ret &= av_seek_frame(...)` (line 555). -/
def andI32 (a b : Int) : Int :=
  ofUInt32Bits (Nat.land (toUInt32Bits a) (toUInt32Bits b))

/-- What servicing one seek request in `decode_thread` leaves behind. -/
structure SeekServiceResult where
  queue : PacketQueue
  flushed : Bool
  markerEnqueued : Bool
  logged : Bool
  seek_req : Bool
  ret : Int
deriving Repr, DecidableEq

/-- The seek-servicing block of `decode_thread` (lines 539-572). `prevRet` is
the value the local `ret` holds when the block is entered (left over from
`stream_component_open` or the previous `av_read_frame`); `seekResult` is what
`av_seek_frame` returns. The source computes `ret &= av_seek_frame(...)` and
tests `ret < 0`: failure logs and leaves the queue alone, success flushes the
audio queue and enqueues `flush_pkt` (when an audio stream is open), and the
pending flag is cleared either way. -/
def decode_thread_seek_service (prevRet : Int) (seekResult : Int)
    (hasAudioStream : Bool) (queue : PacketQueue) : SeekServiceResult :=
  let ret := andI32 prevRet seekResult
  if ret < 0 then
    { queue := queue, flushed := false, markerEnqueued := false,
      logged := true, seek_req := false, ret := ret }
  else
    if hasAudioStream then
      let q1 := packet_queue_flush queue
      let q2 := (packet_queue_put q1 flush_pkt true).queue
      { queue := q2, flushed := true, markerEnqueued := true,
        logged := false, seek_req := false, ret := ret }
    else
      { queue := queue, flushed := false, markerEnqueued := false,
        logged := false, seek_req := false, ret := ret }

/-! ## Theorems

First the helper lemmas, then one theorem per claim (with its witness or
counterexample where required). -/

theorem sumSizes_nil : sumSizes [] = 0 := rfl

theorem sumSizes_append (l₁ l₂ : List Packet) :
    sumSizes (l₁ ++ l₂) = sumSizes l₁ + sumSizes l₂ := by
  simp [sumSizes]

theorem sumSizes_cons (p : Packet) (l : List Packet) :
    sumSizes (p :: l) = p.size + sumSizes l := by
  simp [sumSizes]

theorem queueAccurate_applyOp (queue : PacketQueue) (op : QueueOp)
    (h : QueueAccurate queue) : QueueAccurate (applyOp queue op) := by
  obtain ⟨hsize, hnb⟩ := h
  cases op with
  | put p allocOk =>
      cases allocOk with
      | false => exact ⟨hsize, hnb⟩
      | true =>
          constructor
          · simp [applyOp, packet_queue_put, sumSizes_append, sumSizes_cons,
              sumSizes_nil, hsize]
          · simp [applyOp, packet_queue_put, hnb]
  | get blocking quit =>
      cases quit with
      | true => exact ⟨hsize, hnb⟩
      | false =>
          cases hq : queue.pkts with
          | nil =>
              have heq : applyOp queue (QueueOp.get blocking false) = queue := by
                cases blocking <;> simp [applyOp, packet_queue_get, hq]
              rw [heq]
              exact ⟨hsize, hnb⟩
          | cons p rest =>
              constructor
              · simp [applyOp, packet_queue_get, hq, hsize, sumSizes_cons]
              · simp [applyOp, packet_queue_get, hq, hnb]
  | flushOp => exact ⟨rfl, rfl⟩

theorem allSizesPos_applyOp (queue : PacketQueue) (op : QueueOp)
    (h : AllSizesPos queue)
    (hop : ∀ p allocOk, op = QueueOp.put p allocOk → 0 < p.size) :
    AllSizesPos (applyOp queue op) := by
  cases op with
  | put p allocOk =>
      cases allocOk with
      | false => exact h
      | true =>
          intro q hq
          simp [applyOp, packet_queue_put] at hq
          rcases hq with hq | hq

          · exact h q hq
          · exact hq ▸ hop p true rfl
  | get blocking quit =>
      cases quit with
      | true => exact h
      | false =>
          cases hq : queue.pkts with
          | nil =>
              have heq : applyOp queue (QueueOp.get blocking false) = queue := by
                cases blocking <;> simp [applyOp, packet_queue_get, hq]
              rw [heq]
              exact h
          | cons p rest =>
              intro r hr
              apply h
              simp [applyOp, packet_queue_get, hq] at hr
              simp [hq, hr]
  | flushOp =>
      intro r hr
      simp [applyOp, packet_queue_flush] at hr

theorem runOps_cons (q : PacketQueue) (op : QueueOp) (ops : List QueueOp) :
    runOps q (op :: ops) = runOps (applyOp q op) ops := rfl

theorem putSizesPos_cons (op : QueueOp) (ops : List QueueOp)
    (h : putSizesPos (op :: ops) = true) :
    (∀ p allocOk, op = QueueOp.put p allocOk → 0 < p.size) ∧
      putSizesPos ops = true := by
  constructor
  · intro p allocOk heq
    subst heq
    simp [putSizesPos, List.all_cons] at h
    exact h.1
  · simp only [putSizesPos, List.all_cons, Bool.and_eq_true] at h
    exact h.2

theorem runOps_invariant (ops : List QueueOp) (q : PacketQueue)
    (ha : QueueAccurate q) (hp : AllSizesPos q) (hops : putSizesPos ops = true) :
    QueueAccurate (runOps q ops) ∧ AllSizesPos (runOps q ops) := by
  induction ops generalizing q with
  | nil => exact ⟨ha, hp⟩
  | cons op rest ih =>
      obtain ⟨hop, hrest⟩ := putSizesPos_cons op rest hops
      rw [runOps_cons]
      exact ih (applyOp q op) (queueAccurate_applyOp q op ha)
        (allSizesPos_applyOp q op hp hop) hrest

theorem sumSizes_nonneg (l : List Packet) (h : ∀ p ∈ l, 0 < p.size) :
    0 ≤ sumSizes l := by
  induction l with
  | nil => simp [sumSizes]
  | cons p rest ih =>
      have hp := h p (by simp)
      have hr := ih fun q hq => h q (by simp [hq])
      rw [sumSizes_cons]
      omega

theorem sumSizes_eq_zero (l : List Packet) (h : ∀ p ∈ l, 0 < p.size)
    (hz : sumSizes l = 0) : l = [] := by
  cases l with
  | nil => rfl
  | cons p rest =>
      have hp := h p (by simp)
      have hr := sumSizes_nonneg rest fun q hq => h q (by simp [hq])
      rw [sumSizes_cons] at hz
      omega

/-- C4 (amended): starting from an initialized empty queue, after any finite
sequence of `packet_queue_put` / `packet_queue_get` / `packet_queue_flush`
operations, `size` equals the sum of the `pkt.size` fields of the packets
currently in the list; and, provided every enqueued packet has strictly
positive size, `nb_packets = 0` holds exactly when `size = 0`. (The claim's
own hypothesis — merely non-negative sizes — is not enough: see the
counterexample with the zero-size `flush_pkt`.) -/
theorem packet_queue_accounting (ops : List QueueOp)
    (hops : putSizesPos ops = true) :
    (runOps packet_queue_init ops).size =
      sumSizes (runOps packet_queue_init ops).pkts ∧
    ((runOps packet_queue_init ops).nb_packets = 0 ↔
      (runOps packet_queue_init ops).size = 0) := by
  have hinit : QueueAccurate packet_queue_init := ⟨rfl, rfl⟩
  have hpos : AllSizesPos packet_queue_init := by
    intro p hp
    simp [packet_queue_init] at hp
  obtain ⟨⟨hsize, hnb⟩, hall⟩ := runOps_invariant ops packet_queue_init hinit hpos hops
  refine ⟨hsize, ?_, ?_⟩
  · intro h0
    rw [hsize]
    have hlen : (runOps packet_queue_init ops).pkts.length = 0 := by omega
    have : (runOps packet_queue_init ops).pkts = [] := List.length_eq_zero.mp hlen
    rw [this, sumSizes_nil]
  · intro h0
    rw [hsize] at h0
    have : (runOps packet_queue_init ops).pkts = [] := sumSizes_eq_zero _ hall h0
    rw [hnb, this]
    rfl

/-- Witness for C4: a concrete history (two puts, one successful get) for which
the accounting invariant is checked by applying the theorem. -/
theorem packet_queue_accounting_witness :
    putSizesPos
      [QueueOp.put ⟨2, none, false⟩ true, QueueOp.put ⟨3, none, false⟩ true,
        QueueOp.get true false] = true ∧
    ((runOps packet_queue_init
        [QueueOp.put ⟨2, none, false⟩ true, QueueOp.put ⟨3, none, false⟩ true,
          QueueOp.get true false]).size =
      sumSizes (runOps packet_queue_init
        [QueueOp.put ⟨2, none, false⟩ true, QueueOp.put ⟨3, none, false⟩ true,
          QueueOp.get true false]).pkts ∧
    ((runOps packet_queue_init
        [QueueOp.put ⟨2, none, false⟩ true, QueueOp.put ⟨3, none, false⟩ true,
          QueueOp.get true false]).nb_packets = 0 ↔
      (runOps packet_queue_init
        [QueueOp.put ⟨2, none, false⟩ true, QueueOp.put ⟨3, none, false⟩ true,
          QueueOp.get true false]).size = 0)) :=
  ⟨by decide, packet_queue_accounting _ (by decide)⟩

/-- C4 as stated is false: the program's own `flush_pkt` has (non-negative)
size 0, and pushing it gives `nb_packets = 1` with `size = 0`, so
`nb_packets = 0 ↔ size = 0` fails. -/
theorem packet_queue_accounting_counterexample :
    0 ≤ flush_pkt.size ∧
    (runOps packet_queue_init [QueueOp.put flush_pkt true]).nb_packets = 1 ∧
    (runOps packet_queue_init [QueueOp.put flush_pkt true]).size = 0 ∧
    ¬ ((runOps packet_queue_init [QueueOp.put flush_pkt true]).nb_packets = 0 ↔
        (runOps packet_queue_init [QueueOp.put flush_pkt true]).size = 0) := by
  decide

/-- C5: one pass of `packet_queue_get`: a set quit flag returns the quit result
(-1) regardless of queue contents and without waiting; otherwise a non-empty
queue has its head detached with `nb_packets` and `size` decremented by that
packet's count and bytes and return code 1; an empty queue returns 0 (empty)
when non-blocking, and otherwise waits on the not-empty condition to re-check. -/
theorem packet_queue_get_spec (queue : PacketQueue) (blocking quit : Bool) :
    (quit = true →
      packet_queue_get queue blocking quit = (GetResult.quitRes, queue) ∧
      getRetCode GetResult.quitRes = some (-1)) ∧
    (quit = false → ∀ p rest, queue.pkts = p :: rest →
      packet_queue_get queue blocking quit =
        (GetResult.got p,
          { pkts := rest, nb_packets := queue.nb_packets - 1,
            size := queue.size - p.size }) ∧
      getRetCode (GetResult.got p) = some 1) ∧
    (quit = false → queue.pkts = [] → blocking = false →
      packet_queue_get queue blocking quit = (GetResult.emptyRes, queue) ∧
      getRetCode GetResult.emptyRes = some 0) ∧
    (quit = false → queue.pkts = [] → blocking = true →
      packet_queue_get queue blocking quit = (GetResult.blocked, queue)) := by
  refine ⟨?_, ?_, ?_, ?_⟩
  · intro hq
    subst hq
    exact ⟨by simp [packet_queue_get], rfl⟩
  · intro hq p rest hpk
    subst hq
    exact ⟨by simp [packet_queue_get, hpk], rfl⟩
  · intro hq hpk hb
    subst hq; subst hb
    exact ⟨by simp [packet_queue_get, hpk], rfl⟩
  · intro hq hpk hb
    subst hq; subst hb
    simp [packet_queue_get, hpk]

/-- Witness for C5: the non-empty branch evaluated on a one-packet queue. -/
theorem packet_queue_get_spec_witness :
    packet_queue_get ⟨[⟨5, none, false⟩], 1, 5⟩ true false =
      (GetResult.got ⟨5, none, false⟩,
        { pkts := [], nb_packets := (1 : Int) - 1, size := (5 : Int) - 5 }) :=
  ((packet_queue_get_spec ⟨[⟨5, none, false⟩], 1, 5⟩ true false).2.1 rfl
    ⟨5, none, false⟩ [] rfl).1

/-- C9: a `packet_queue_put` whose `av_malloc` fails returns -1 and is atomic:
`first_pkt`/`last_pkt` (the list), `nb_packets` and `size` are exactly as at
entry and no not-empty signal is raised. -/
theorem packet_queue_put_alloc_fail (queue : PacketQueue) (packet : Packet) :
    packet_queue_put queue packet false =
      { ret := -1, queue := queue, signaled := false } := rfl

/-- C10: `packet_queue_get` modifies the queue only when it extracts a packet;
the quit (-1) and empty (0) outcomes leave every queue field unchanged. -/
theorem packet_queue_get_frame (queue q2 : PacketQueue) (blocking quit : Bool)
    (r : GetResult) (h : packet_queue_get queue blocking quit = (r, q2))
    (hr : r = GetResult.quitRes ∨ r = GetResult.emptyRes) : q2 = queue := by
  cases quit with
  | true =>
      simp [packet_queue_get] at h
      exact h.2.symm
  | false =>
      cases hpk : queue.pkts with
      | nil =>
          cases blocking with
          | false =>
              simp [packet_queue_get, hpk] at h
              exact h.2.symm
          | true =>
              simp [packet_queue_get, hpk] at h
              exact h.2.symm
      | cons p rest =>
          simp [packet_queue_get, hpk] at h
          rcases hr with hr | hr <;> rw [← h.1] at hr <;> simp at hr

/-- Witness for C10: the empty non-blocking outcome on the empty queue leaves
it unchanged. -/
theorem packet_queue_get_frame_witness :
    packet_queue_get ⟨[], 0, 0⟩ false false = (GetResult.emptyRes, ⟨[], 0, 0⟩) ∧
      (⟨[], 0, 0⟩ : PacketQueue) = ⟨[], 0, 0⟩ :=
  ⟨rfl, packet_queue_get_frame ⟨[], 0, 0⟩ ⟨[], 0, 0⟩ false false
    GetResult.emptyRes rfl (Or.inr rfl)⟩

/-- C8: `stream_seek` records the target position and the backward/forward
flag and sets the pending flag only when no request is pending; a request
made while one is pending changes nothing; after the producer services one
request, exactly the first request's parameters have been applied. -/
theorem stream_seek_spec (vs : SeekState) (pos rel pos2 rel2 : Int) :
    (vs.seek_req = false →
      stream_seek vs pos rel =
        { seek_req := true,
          seek_flags := if rel < 0 then AVSEEK_FLAG_BACKWARD else 0,
          seek_pos := pos }) ∧
    (vs.seek_req = true → stream_seek vs pos rel = vs) ∧
    (vs.seek_req = false →
      (serviceSeek (stream_seek (stream_seek vs pos rel) pos2 rel2)).1 =
        (pos, if rel < 0 then AVSEEK_FLAG_BACKWARD else 0)) := by
  refine ⟨?_, ?_, ?_⟩ <;> intro h <;> simp [stream_seek, serviceSeek, h]

/-- Witness for C8: seek A (backward to 1 s) followed by seek B before A is
serviced; servicing applies exactly A's parameters. -/
theorem stream_seek_spec_witness :
    (serviceSeek (stream_seek (stream_seek ⟨false, 0, 0⟩ 1000000 (-10))
        2000000 10)).1 = (1000000, AVSEEK_FLAG_BACKWARD) := by
  have h := (stream_seek_spec ⟨false, 0, 0⟩ 1000000 (-10) 2000000 10).2.2 rfl
  simpa using h

/-- C3 fails on the code at a concrete input: with the usual prior `ret = 0`
(left by a successful `av_read_frame` or `stream_component_open`) and
`av_seek_frame` failing with -1, the source's `ret &= av_seek_frame(...)`
computes `0 & -1 = 0`, so the `ret < 0` failure branch is NOT taken: nothing
is logged, and the queue IS flushed, with a flush marker enqueued; only the
clearing of the pending flag matches the claim. -/
theorem decode_thread_seek_service_bug :
    andI32 0 (-1) = 0 ∧
    (decode_thread_seek_service 0 (-1) true ⟨[⟨7, none, false⟩], 1, 7⟩).logged
      = false ∧
    (decode_thread_seek_service 0 (-1) true ⟨[⟨7, none, false⟩], 1, 7⟩).flushed
      = true ∧
    (decode_thread_seek_service 0 (-1) true
        ⟨[⟨7, none, false⟩], 1, 7⟩).markerEnqueued = true ∧
    (decode_thread_seek_service 0 (-1) true ⟨[⟨7, none, false⟩], 1, 7⟩).queue =
      ⟨[flush_pkt], 1, 0⟩ ∧
    (decode_thread_seek_service 0 (-1) true ⟨[⟨7, none, false⟩], 1, 7⟩).seek_req
      = false := by
  decide

/-- C6: immediately after a popped non-flush-marker packet with a valid pts is
consumed, `audio_clock` equals `pts * streamTimeBaseSeconds`; a packet without
a valid pts leaves the clock at the running estimate; and three packets with
pts 0, 500, 1000 under time base 1/1000 snap the clock to 0, 1/2, 1. -/
theorem audio_decode_frame_clock_snap (clock time_base : ℚ) (pkt : Packet) :
    (pkt.isFlushMarker = false → ∀ ts, pkt.pts = some ts →
      adfConsumePacket clock time_base pkt = time_base * (ts : ℚ)) ∧
    (pkt.isFlushMarker = false → pkt.pts = none →
      adfConsumePacket clock time_base pkt = clock) ∧
    adfClockTrace 0 (1 / 1000)
      [⟨100, some 0, false⟩, ⟨100, some 500, false⟩, ⟨100, some 1000, false⟩] =
      [0, 1 / 2, 1] := by
  refine ⟨?_, ?_, ?_⟩
  · intro hf ts hts
    simp [adfConsumePacket, hf, hts]
  · intro hf hts
    simp [adfConsumePacket, hf, hts]
  · norm_num [adfClockTrace, adfConsumePacket]

/-- Witness for C6: a packet with pts 500 under time base 1/1000 snaps a clock
that was at 3 to 1/2. -/
theorem audio_decode_frame_clock_snap_witness :
    adfConsumePacket 3 (1 / 1000) ⟨4, some 500, false⟩ =
      (1 / 1000 : ℚ) * ((500 : Int) : ℚ) :=
  (audio_decode_frame_clock_snap 3 (1 / 1000) ⟨4, some 500, false⟩).1 rfl 500 rfl

theorem addSamplesLoop_nonpos (buf : List Int) (samples_end q : ℕ) (n nb : Int)
    (h : nb ≤ 0) : addSamplesLoop buf samples_end q n nb = buf := by
  unfold addSamplesLoop
  rw [Int.toNat_of_nonpos h]
  rfl

/-- C2 fails on the code: `synchronize_audio` never writes the sample buffer,
for any input whatsoever. In the padding branch the loop bound is computed
with the operands swapped (`nb = samples_size - wanted_size`, line 846), which
is negative exactly when the branch is taken, so the `while (nb > 0)` copy
loop never executes (and the integer clamp `max_size = samples_size * 1`
makes the branch unreachable from the full function in the first place). -/
theorem synchronize_audio_never_pads (vs : SyncState) (samples : List Int)
    (samples_size : Int) (now_us : ℚ) :
    (synchronize_audio vs samples samples_size now_us).samples = samples := by
  simp only [synchronize_audio]
  repeat' split
  all_goals
    first
      | rfl
      | (rename_i hgt
         exact addSamplesLoop_nonpos _ _ _ _ _ (by omega))

theorem truncQ_intCast (z : Int) : truncQ ((z : ℚ)) = z := by
  simp [truncQ, Rat.num_intCast, Rat.den_intCast, Int.tdiv_one]

/-- C1 (amended): for `samplesSize > 0` in external-master mode, when a
correction fires (at least `AUDIO_DIFF_AVG_NB` diff samples accumulated and
`|avgDiff|` at or above the threshold) the returned size lies in the interval
the source's integer percentage arithmetic actually produces — `[0,
samplesSize]`, because `(100-10)/100` and `(100+10)/100` truncate to `0` and
`1` — and the size is returned exactly unchanged whenever `|avgDiff| <
diffThreshold` or fewer than `AUDIO_DIFF_AVG_NB` samples have been
accumulated. -/
theorem synchronize_audio_clamp (vs : SyncState) (samples : List Int)
    (samples_size : Int) (now_us : ℚ) (hs : 0 < samples_size)
    (hext : vs.av_sync_type ≠ AV_SYNC_AUDIO_MASTER) :
    (AUDIO_DIFF_AVG_NB ≤ vs.audio_diff_avg_count →
      vs.audio_diff_threshold ≤ |sync_avg_diff vs now_us| →
      0 ≤ (synchronize_audio vs samples samples_size now_us).samples_size ∧
        (synchronize_audio vs samples samples_size now_us).samples_size ≤
          samples_size) ∧
    (vs.audio_diff_avg_count < AUDIO_DIFF_AVG_NB ∨
        |sync_avg_diff vs now_us| < vs.audio_diff_threshold →
      (synchronize_audio vs samples samples_size now_us).samples_size =
        samples_size) := by
  have h90 : (100 - SAMPLE_CORRECTION_PERCENT_MAX) / 100 = (0 : Int) := by decide
  have h110 : (100 + SAMPLE_CORRECTION_PERCENT_MAX) / 100 = (1 : Int) := by decide
  constructor
  · intro hcount hthr
    simp only [sync_avg_diff, sync_diff] at hthr
    simp only [synchronize_audio, h90, h110, mul_zero, mul_one]
    split_ifs <;> dsimp only <;> omega
  · intro hB
    simp only [sync_avg_diff, sync_diff] at hB
    simp only [synchronize_audio, h90, h110, mul_zero, mul_one]
    rcases hB with hcount | hthr <;>
      split_ifs <;> dsimp only <;> first | rfl | omega | linarith

/-- C1 is false as stated: a concrete external-master state with a correction
firing (20 samples accumulated, threshold 0 ≤ |avgDiff| = 1, diff = -1 below
the no-sync threshold) on `samples_size = 1000` returns 0, far outside the
claimed interval `[samplesSize*0.9, samplesSize*1.1] = [900, 1100]`: the
source's `min_size = samples_size * ((100-10)/100)` truncates to
`samples_size * 0 = 0`. -/
theorem synchronize_audio_clamp_counterexample :
    (⟨1, true, 2, 1000, 0, 0, 0, 0, 0, 0, 20⟩ : SyncState).av_sync_type ≠
        AV_SYNC_AUDIO_MASTER ∧
    AUDIO_DIFF_AVG_NB ≤
      (⟨1, true, 2, 1000, 0, 0, 0, 0, 0, 0, 20⟩ : SyncState).audio_diff_avg_count ∧
    (⟨1, true, 2, 1000, 0, 0, 0, 0, 0, 0, 20⟩ : SyncState).audio_diff_threshold ≤
      |sync_avg_diff ⟨1, true, 2, 1000, 0, 0, 0, 0, 0, 0, 20⟩ 1000000| ∧
    (synchronize_audio ⟨1, true, 2, 1000, 0, 0, 0, 0, 0, 0, 20⟩ [] 1000
        1000000).samples_size = 0 ∧
    ¬ (900 ≤ (synchronize_audio ⟨1, true, 2, 1000, 0, 0, 0, 0, 0, 0, 20⟩ [] 1000
        1000000).samples_size) := by
  have hA : get_audio_clock ⟨1, true, 2, 1000, 0, 0, 0, 0, 0, 0, 20⟩ = 0 := by
    norm_num [get_audio_clock]
  have hM : get_master_clock ⟨1, true, 2, 1000, 0, 0, 0, 0, 0, 0, 20⟩ 1000000 = 1 := by
    norm_num [get_master_clock, get_external_clock, AV_SYNC_AUDIO_MASTER,
      AV_SYNC_EXTERNAL_MASTER]
  have htr : truncQ (-1000 : ℚ) = -1000 := by
    have h : (-1000 : ℚ) = ((-1000 : Int) : ℚ) := by norm_num
    rw [h, truncQ_intCast]
  have hres : (synchronize_audio ⟨1, true, 2, 1000, 0, 0, 0, 0, 0, 0, 20⟩ [] 1000
      1000000).samples_size = 0 := by
    simp only [synchronize_audio, hA, hM]
    norm_num [AV_SYNC_AUDIO_MASTER, AV_NOSYNC_THRESHOLD, AUDIO_DIFF_AVG_NB,
      SAMPLE_CORRECTION_PERCENT_MAX, htr]
  refine ⟨by decide, by decide, ?_, hres, ?_⟩
  · norm_num [sync_avg_diff, sync_diff, hA, hM]
  · rw [hres]
    decide

/-- Witness for C1: the amended theorem applied to the counterexample state;
the returned size 0 does lie in the actual clamp interval `[0, 1000]`. -/
theorem synchronize_audio_clamp_witness :
    0 ≤ (synchronize_audio ⟨1, true, 2, 1000, 0, 0, 0, 0, 0, 0, 20⟩ [] 1000
        1000000).samples_size ∧
    (synchronize_audio ⟨1, true, 2, 1000, 0, 0, 0, 0, 0, 0, 20⟩ [] 1000
        1000000).samples_size ≤ 1000 :=
  (synchronize_audio_clamp ⟨1, true, 2, 1000, 0, 0, 0, 0, 0, 0, 20⟩ [] 1000
      1000000 (by decide) (by decide)).1 (by decide)
    (by
      have hA : get_audio_clock ⟨1, true, 2, 1000, 0, 0, 0, 0, 0, 0, 20⟩ = 0 := by
        norm_num [get_audio_clock]
      have hM : get_master_clock ⟨1, true, 2, 1000, 0, 0, 0, 0, 0, 0, 20⟩
          1000000 = 1 := by
        norm_num [get_master_clock, get_external_clock, AV_SYNC_AUDIO_MASTER,
          AV_SYNC_EXTERNAL_MASTER]
      norm_num [sync_avg_diff, sync_diff, hA, hM])

/-- C7 is false as stated: nothing in the code keeps a timestamp snap from
moving `audio_clock` backwards. Two packets whose pts decrease (1000 then 0,
time base 1/1000, mono at 1000 Hz) give successive chunk clocks 501/500 and
then 1/500 — a strictly decreasing pair. -/
theorem audio_clock_monotone_counterexample :
    adfChunkClocks (1 / 1000) 1 1000 0
        [AdfEvent.packetPop (some 1000), AdfEvent.chunkOut 4,
          AdfEvent.packetPop (some 0), AdfEvent.chunkOut 4] =
      [501 / 500, 1 / 500] ∧
    ¬ List.Chain' (· ≤ ·)
        (adfChunkClocks (1 / 1000) 1 1000 0
          [AdfEvent.packetPop (some 1000), AdfEvent.chunkOut 4,
            AdfEvent.packetPop (some 0), AdfEvent.chunkOut 4]) := by
  have h : adfChunkClocks (1 / 1000) 1 1000 0
      [AdfEvent.packetPop (some 1000), AdfEvent.chunkOut 4,
        AdfEvent.packetPop (some 0), AdfEvent.chunkOut 4] =
      [501 / 500, 1 / 500] := by
    norm_num [adfChunkClocks, adfEventStep]
  refine ⟨h, ?_⟩
  rw [h]
  simp only [List.chain'_cons, List.chain'_singleton, and_true]
  norm_num

theorem adfClockRun_mono (time_base : ℚ) (channels sample_rate : Int)
    (events : List AdfEvent) (clock : ℚ)
    (hch : 0 ≤ channels) (hsr : 0 ≤ sample_rate)
    (hsnap : snapsForward time_base channels sample_rate clock events = true) :
    clock ≤ adfClockRun time_base channels sample_rate clock events ∧
    (∀ c ∈ (adfChunkClocks time_base channels sample_rate clock events).head?,
      clock ≤ c) ∧
    List.Chain' (· ≤ ·)
      (adfChunkClocks time_base channels sample_rate clock events) := by
  induction events generalizing clock with
  | nil =>
      refine ⟨le_refl clock, ?_, List.chain'_nil⟩
      intro c hc
      simp [adfChunkClocks] at hc
  | cons e rest ih =>
      cases e with
      | packetPop pts =>
          cases pts with
          | some ts =>
              rw [snapsForward, Bool.and_eq_true, decide_eq_true_eq] at hsnap
              obtain ⟨hle, hrest⟩ := hsnap
              obtain ⟨h1, h2, h3⟩ := ih (time_base * (ts : ℚ)) hrest
              refine ⟨?_, ?_, ?_⟩
              · calc clock ≤ time_base * (ts : ℚ) := hle
                  _ ≤ _ := by
                    simpa [adfClockRun, adfEventStep] using h1
              · intro c hc
                simp only [adfChunkClocks, adfEventStep] at hc
                exact le_trans hle (h2 c hc)
              · simpa [adfChunkClocks, adfEventStep] using h3
          | none =>
              rw [snapsForward] at hsnap
              obtain ⟨h1, h2, h3⟩ := ih clock hsnap
              refine ⟨?_, ?_, ?_⟩
              · simpa [adfClockRun, adfEventStep] using h1
              · intro c hc
                simp only [adfChunkClocks, adfEventStep] at hc
                exact h2 c hc
              · simpa [adfChunkClocks, adfEventStep] using h3
      | chunkOut ds =>
          rw [snapsForward, Bool.and_eq_true, decide_eq_true_eq] at hsnap
          obtain ⟨hds, hrest⟩ := hsnap
          have hden : (0 : ℚ) ≤ ((2 * channels * sample_rate : Int) : ℚ) := by
            have : (0 : Int) ≤ 2 * channels * sample_rate := by positivity
            exact_mod_cast this
          have hstep : clock ≤ adfEventStep time_base channels sample_rate clock
              (AdfEvent.chunkOut ds) := by
            simp only [adfEventStep]
            have : (0 : ℚ) ≤ (ds : ℚ) / ((2 * channels * sample_rate : Int) : ℚ) :=
              div_nonneg (by exact_mod_cast hds) hden
            linarith
          obtain ⟨h1, h2, h3⟩ := ih _ hrest
          refine ⟨?_, ?_, ?_⟩
          · exact le_trans hstep (by simpa [adfClockRun] using h1)
          · intro c hc
            simp only [adfChunkClocks, List.head?] at hc
            have : c = adfEventStep time_base channels sample_rate clock
                (AdfEvent.chunkOut ds) := by
              simpa using hc.symm
            rw [this]
            exact hstep
          · rw [adfChunkClocks]
            rw [List.chain'_cons']
            exact ⟨h2, h3⟩

/-- C7 (amended): absent seeks, `audio_clock` is non-decreasing across the
successive chunks `audio_decode_frame` delivers to the sink callback, provided
every chunk carries a non-negative byte count and every timestamp snap lands
at or after the clock's current value (each chunk itself adds
`data_size / (2 * channels * sample_rate) ≥ 0` seconds, but the code lets a
packet whose pts lies in the past move the clock backwards — see the
counterexample). -/
theorem audio_clock_monotone (time_base : ℚ) (channels sample_rate : Int)
    (clock : ℚ) (events : List AdfEvent)
    (hch : 0 ≤ channels) (hsr : 0 ≤ sample_rate)
    (hsnap : snapsForward time_base channels sample_rate clock events = true) :
    List.Chain' (· ≤ ·)
      (adfChunkClocks time_base channels sample_rate clock events) :=
  (adfClockRun_mono time_base channels sample_rate events clock hch hsr hsnap).2.2

/-- Witness for C7: a well-formed trace (pts 0 then 1000, two 4-byte chunks)
satisfies the snap condition and yields monotone chunk clocks. -/
theorem audio_clock_monotone_witness :
    snapsForward (1 / 1000) 1 1000 0
        [AdfEvent.packetPop (some 0), AdfEvent.chunkOut 4,
          AdfEvent.packetPop (some 1000), AdfEvent.chunkOut 4] = true ∧
    List.Chain' (· ≤ ·)
      (adfChunkClocks (1 / 1000) 1 1000 0
        [AdfEvent.packetPop (some 0), AdfEvent.chunkOut 4,
          AdfEvent.packetPop (some 1000), AdfEvent.chunkOut 4]) :=
  ⟨by norm_num [snapsForward, adfEventStep],
    audio_clock_monotone (1 / 1000) 1 1000 0
      [AdfEvent.packetPop (some 0), AdfEvent.chunkOut 4,
        AdfEvent.packetPop (some 1000), AdfEvent.chunkOut 4]
      (by decide) (by decide) (by norm_num [snapsForward, adfEventStep])⟩
